import Mathlib

/-!
Shallow embedding of the Filelearn analysis pipeline
(src/app.py, src/document_parser.py, src/llm_analyzer.py).

Pure Python string operations are modelled over `String` / `List Char`;
machine-level byte content is `List Nat` (each entry one byte, < 256);
exceptions are `Except`; external collaborators (the OCR engine, the
langchain document loaders and text splitter, the remote chat client,
Python's `json.loads`) are function parameters, so theorems quantify over
their behaviour.
-/

namespace Filelearn

/-- Whitespace as stripped by Python `str.strip()` with no argument,
restricted to the ASCII whitespace characters (the Unicode additions play
no role in the claims). -/
def pyIsSpace (c : Char) : Bool :=
  c == ' ' || c == '\t' || c == '\n' || c == '\r' || c == '\x0b' || c == '\x0c'

/-- `str.strip()` on a character list: drop leading and trailing whitespace. -/
def stripList (l : List Char) : List Char :=
  ((l.dropWhile pyIsSpace).reverse.dropWhile pyIsSpace).reverse

/-- Python `s.strip()`. -/
def pyStrip (s : String) : String :=
  String.mk (stripList s.data)

/-- Python `str.splitlines()` restricted to the line boundaries
`\n`, `\r\n` and `\r` (the rarer Unicode boundaries play no role in the
claims).  `"".splitlines() = []` and a trailing boundary produces no empty
final line, as in Python. -/
def pySplitlines : List Char → List Char → List (List Char)
  | [], acc => if acc.isEmpty then [] else [acc.reverse]
  | '\r' :: '\n' :: rest, acc => acc.reverse :: pySplitlines rest []
  | '\n' :: rest, acc => acc.reverse :: pySplitlines rest []
  | '\r' :: rest, acc => acc.reverse :: pySplitlines rest []
  | c :: rest, acc => pySplitlines rest (c :: acc)

/-- Python `s.lower()` (ASCII case mapping; the filenames the claims
involve are ASCII). -/
def pyLower (s : String) : String :=
  String.mk (s.data.map Char.toLower)

/-- Python `s.endswith(suffix)`. -/
def pyEndsWith (s suffix : String) : Bool :=
  suffix.data.reverse.isPrefixOf s.data.reverse

/-- Python `"\n".join(chunks)`. -/
def joinWithNewline : List String → String
  | [] => ""
  | c :: cs =>
    match cs with
    | [] => c
    | _ :: _ => c ++ "\n" ++ joinWithNewline cs

/-- Is `b` a UTF-8 continuation byte (`0x80..0xBF`)? -/
def isCont (b : Nat) : Bool := 0x80 ≤ b && b ≤ 0xBF

/-- Valid second byte of a three-byte sequence with lead byte `b1`
(the `0xE0`/`0xED` lead bytes restrict it, excluding overlong forms and
surrogates, as CPython's decoder does). -/
def isCont3 (b1 b2 : Nat) : Bool :=
  if b1 == 0xE0 then 0xA0 ≤ b2 && b2 ≤ 0xBF
  else if b1 == 0xED then 0x80 ≤ b2 && b2 ≤ 0x9F
  else isCont b2

/-- Valid second byte of a four-byte sequence with lead byte `b1`
(`0xF0`/`0xF4` restrict it, excluding overlong forms and values beyond
`U+10FFFF`). -/
def isCont4 (b1 b2 : Nat) : Bool :=
  if b1 == 0xF0 then 0x90 ≤ b2 && b2 ≤ 0xBF
  else if b1 == 0xF4 then 0x80 ≤ b2 && b2 ≤ 0x8F
  else isCont b2

/-- UTF-8 decoding with an error handler, structured on a fuel argument so
it recurses structurally (each step consumes at least one byte, so fuel
equal to the byte count, as supplied by `utf8DecodeWith`, is never
exhausted).  On an invalid or truncated sequence, emit `sub` in place of
the maximal invalid subpart and resume, as CPython does. -/
def utf8DecodeAux (sub : List Char) : Nat → List Nat → List Char
  | 0, _ => []
  | _ + 1, [] => []
  | fuel + 1, b :: rest =>
    if b ≤ 0x7F then
      Char.ofNat b :: utf8DecodeAux sub fuel rest
    else if 0xC2 ≤ b && b ≤ 0xDF then
      match rest with
      | [] => sub
      | b2 :: rest2 =>
        if isCont b2 then
          Char.ofNat ((b - 0xC0) * 0x40 + (b2 - 0x80)) :: utf8DecodeAux sub fuel rest2
        else sub ++ utf8DecodeAux sub fuel (b2 :: rest2)
    else if 0xE0 ≤ b && b ≤ 0xEF then
      match rest with
      | [] => sub
      | b2 :: rest2 =>
        if isCont3 b b2 then
          match rest2 with
          | [] => sub
          | b3 :: rest3 =>
            if isCont b3 then
              Char.ofNat ((b - 0xE0) * 0x1000 + (b2 - 0x80) * 0x40 + (b3 - 0x80)) ::
                utf8DecodeAux sub fuel rest3
            else sub ++ utf8DecodeAux sub fuel (b3 :: rest3)
        else sub ++ utf8DecodeAux sub fuel (b2 :: rest2)
    else if 0xF0 ≤ b && b ≤ 0xF4 then
      match rest with
      | [] => sub
      | b2 :: rest2 =>
        if isCont4 b b2 then
          match rest2 with
          | [] => sub
          | b3 :: rest3 =>
            if isCont b3 then
              match rest3 with
              | [] => sub
              | b4 :: rest4 =>
                if isCont b4 then
                  Char.ofNat ((b - 0xF0) * 0x40000 + (b2 - 0x80) * 0x1000 +
                      (b3 - 0x80) * 0x40 + (b4 - 0x80)) :: utf8DecodeAux sub fuel rest4
                else sub ++ utf8DecodeAux sub fuel (b4 :: rest4)
            else sub ++ utf8DecodeAux sub fuel (b3 :: rest3)
        else sub ++ utf8DecodeAux sub fuel (b2 :: rest2)
    else sub ++ utf8DecodeAux sub fuel rest

/-- UTF-8 decoding with an error handler: `sub = []` models
`errors="ignore"`; `sub = ['�']` models `errors="replace"`. -/
def utf8DecodeWith (sub : List Char) (bytes : List Nat) : List Char :=
  utf8DecodeAux sub bytes.length bytes

/-- `bytes.decode("utf-8", errors="ignore")` — undecodable sequences are
dropped. -/
def decodeUtf8Ignore (bytes : List Nat) : String :=
  String.mk (utf8DecodeWith [] bytes)

/-- `bytes.decode("utf-8", errors="replace")` — undecodable sequences become
`U+FFFD`. -/
def decodeUtf8Replace (bytes : List Nat) : String :=
  String.mk (utf8DecodeWith [Char.ofNat 0xFFFD] bytes)

/-- JSON values, as produced by Python's `json.loads` and serialized by
`JSONResponse` (numbers restricted to integers; no claim involves a
non-integral number). -/
inductive JsonVal where
  | null : JsonVal
  | bool (b : Bool) : JsonVal
  | num (n : Int) : JsonVal
  | str (s : String) : JsonVal
  | arr (xs : List JsonVal) : JsonVal
  | obj (fields : List (String × JsonVal)) : JsonVal
deriving Repr

/-- A Python exception as observed by the handler's `except` clause:
either a `fastapi.HTTPException` (status code and detail) or any other
exception carrying its message. -/
inductive PyExc where
  | http (status : Nat) (detail : String) : PyExc
  | other (msg : String) : PyExc
deriving Repr, DecidableEq

/-- `str(e)` for an exception: starlette's `HTTPException.__str__` is
`f"{status_code}: {detail}"`; for other exceptions we carry the message. -/
def excMsg : PyExc → String
  | .http status detail => toString status ++ ": " ++ detail
  | .other msg => msg

/-- A truthy reply object from `chain.invoke`: either it has a `.content`
attribute holding the textual payload (the normal `AIMessage` case), or it
does not, in which case only its `str(...)` conversion is used
(`plain repr`). -/
inductive ModelReply where
  | message (content : String) : ModelReply
  | plain (repr : String) : ModelReply
deriving Repr, DecidableEq

/-- An uploaded file as seen by the handler: its filename and raw bytes. -/
structure UploadedFile where
  filename : String
  content : List Nat
deriving Repr, DecidableEq

/-- The HTTP response produced by the endpoint: a 200 JSON body, or an
error envelope with a status code and a `detail` message. -/
inductive HResponse where
  | ok200 (body : JsonVal) : HResponse
  | err (status : Nat) (detail : String) : HResponse
deriving Repr

/-! ## document_parser.read_image (src/document_parser.py lines 25-70) -/

/-- The list-comprehension cleanup of `read_image`
(src/document_parser.py line 61):
`"\n".join([line.strip() for line in text.splitlines() if line.strip()])`. -/
def cleanOcr (text : String) : String :=
  joinWithNewline
    ((((pySplitlines text.data []).map stripList).filter (fun l => !l.isEmpty)).map
      fun l => String.mk l)

/-- `read_image` (src/document_parser.py lines 25-70).  The external
collaborators are parameters: `imdecode` is `cv2.imdecode` (returns `none`
on undecodable bytes instead of raising), `preprocess` is the
grayscale-plus-threshold step, and `ocr` is `pytesseract.image_to_string`,
which may raise (`Except.error` carries the exception message, caught by
the function's `try`/`except`).  The Lean function is total: every path
returns a string. -/
def read_image {Image : Type} (imdecode : List Nat → Option Image)
    (preprocess : Image → Image) (ocr : Image → Except String String)
    (file_content : List Nat) : String :=
  match imdecode file_content with
  | none => "[图像解码失败]"
  | some image =>
    match ocr (preprocess image) with
    | .error e => "[OCR识别出错: " ++ e ++ "]"
    | .ok text =>
      if cleanOcr text = "" then "[未识别出文字]" else cleanOcr text

/-! ## document_parser.read_document (src/document_parser.py lines 72-115) -/

/-- The input to `read_document`: a file path or a byte blob. -/
inductive FileInput where
  | path (p : String) : FileInput
  | bytes (b : List Nat) : FileInput
deriving Repr, DecidableEq

/-- The suffix handed to `tempfile.NamedTemporaryFile`
(src/document_parser.py line 89): `f".{file_type}"` when a type is given,
else the empty string. -/
def tempSuffix : Option String → String
  | some t => "." ++ t
  | none => ""

/-- `os.path.splitext(p)[-1].lower()` (src/document_parser.py line 95):
the lowercased extension after the last dot, empty when there is no dot.
(The `splitext` corner cases about directory separators and leading dots
play no role here.) -/
def extOf (p : String) : String :=
  if '.' ∈ p.data then
    String.mk ('.' :: ((p.data.reverse.takeWhile (fun c => c != '.')).reverse.map Char.toLower))
  else ""

/-- `read_document` (src/document_parser.py lines 72-115), modelled with an
explicit file-system state `fs` (a path-to-bytes association list).
External collaborators are parameters: `load kind bytes` stands for the
langchain loader of the given kind (`"pdf"` for `PyPDFLoader`, `"docx"`
for `Docx2txtLoader`, `"txt"` for `TextLoader`) applied to the file's
bytes, returning the page texts or raising; `split size overlap docs` is
`RecursiveCharacterTextSplitter(chunk_size=size, chunk_overlap=overlap)
.split_documents` on those pages, returning the chunk texts in order.
`freshName` is the (fresh) name `NamedTemporaryFile` allocates.
For a byte-blob input the bytes are written to the temp file, extraction
runs, and the `finally` block removes the temp file when it exists.
Returns the extraction result together with the final file-system state. -/
def read_document (load : String → List Nat → Except String (List String))
    (split : Nat → Nat → List String → List String)
    (freshName : String) (file_input : FileInput) (file_type : Option String)
    (fs : List (String × List Nat)) :
    Except String String × List (String × List Nat) :=
  let step : String × List (String × List Nat) × Bool :=
    match file_input with
    | .path p => (p, fs, false)
    | .bytes b =>
      let fp := freshName ++ tempSuffix file_type
      (fp, fs ++ [(fp, b)], true)
  let file_path := step.1
  let fs1 := step.2.1
  let isTemp := step.2.2
  let ext := extOf file_path
  let result : Except String String :=
    if ext = ".pdf" then
      (load "pdf" (((fs1.find? (fun e => e.1 == file_path)).map Prod.snd).getD [])).map
        (fun docs => joinWithNewline (split 1000 200 docs))
    else if ext = ".doc" ∨ ext = ".docx" then
      (load "docx" (((fs1.find? (fun e => e.1 == file_path)).map Prod.snd).getD [])).map
        (fun docs => joinWithNewline (split 1000 200 docs))
    else if ext = ".txt" ∨ ext = ".py" ∨ ext = ".java" then
      (load "txt" (((fs1.find? (fun e => e.1 == file_path)).map Prod.snd).getD [])).map
        (fun docs => joinWithNewline (split 1000 200 docs))
    else
      .error ("不支持的文件类型: " ++ ext)
  let fs2 :=
    if isTemp && fs1.any (fun e => e.1 == file_path) then
      fs1.eraseP (fun e => e.1 == file_path)
    else fs1
  (result, fs2)

/-! ## llm_analyzer (src/llm_analyzer.py) -/

/-- The keyword arguments `build_analysis_chain` passes to `ChatOpenAI`
(src/llm_analyzer.py lines 82-95).  The temperature is the exact rational
3/10 (the float `0.3` plays no numeric role). -/
structure LLMConfig where
  api_key : String
  base_url : String
  model : String
  temperature : Rat
  timeout : Nat
  max_retries : Nat
deriving Repr, DecidableEq

/-- The prompt template of `build_analysis_chain`
(src/llm_analyzer.py lines 59-71), with its one substitution slot
`{content}`. -/
def promptTemplate : String :=
  "\n你是一位评审专家，请阅读以下内容并从逻辑和正确性进行分析。不要胡说，要严谨认真。\n输出 JSON 格式的结论，包含以下字段：\n- \"logical_analysis\": 逻辑分析\n- \"correctness_evaluation\": 正确性评价\n- \"overall_score\": 总体评分(1-10分)\n- \"suggestions\": 改进建议\n\n内容如下：\n{content}\n\n请只返回JSON格式的结果，不要有其他文字。\n"

/-- `build_analysis_chain` (src/llm_analyzer.py lines 44-110).  `env` is
`os.getenv`.  Lines 49-51 read the environment (kept here as the unused
locals they are in the source), but the `ChatOpenAI` call passes hardcoded
literals instead — the env-derived keyword arguments are commented out in
the source (lines 83-88).  The chain is the prompt template piped into the
configured client. -/
def build_analysis_chain (env : String → Option String) : LLMConfig × String :=
  let _api_key := (env "DEEPSEEK_API_KEY").getD "sk-fb1aad5eb1234dc3baeeae64a4bf426c"
  let _base_url := env "DEEPSEEK_BASE_URL"
  let _model_name := (env "DEEPSEEK_MODEL").getD "deepseek-chat"
  ({ api_key := "sk-248cb36807834c44a1b2b2104861a6e1"
     base_url := "https://api.deepseek.com/v1"
     model := "deepseek-chat"
     temperature := 3 / 10
     timeout := 60
     max_retries := 2 }, promptTemplate)

/-- How `analyze_content` turns the outcome of `chain.invoke` into its
return value (src/llm_analyzer.py lines 127-183): an exception is caught
and becomes `None`; a falsy result becomes `None` (line 146); otherwise
the reply is returned unchanged. -/
def invokeResultToOption : Except String (Option ModelReply) → Option ModelReply
  | .error _ => none
  | .ok none => none
  | .ok (some r) => some r

/-- `analyze_content` (src/llm_analyzer.py lines 112-183).  `env` is
`os.getenv`; `chainInvoke chain content` stands for `chain.invoke({"content":
content})` on the chain built by `build_analysis_chain`, returning the
reply (possibly falsy, hence `Option`) or raising.  The guard is line 123:
`if not content or len(content.strip()) == 0: return None`.  The chain is
rebuilt on every call (line 130). -/
def analyze_content (env : String → Option String)
    (chainInvoke : LLMConfig × String → String → Except String (Option ModelReply))
    (content : String) : Option ModelReply :=
  if content = "" ∨ pyStrip content = "" then none
  else invokeResultToOption (chainInvoke (build_analysis_chain env) content)

/-! ## app.analyze_api (src/app.py lines 43-82) -/

/-- The prompt assembly of the handler (src/app.py line 64):
`f"题目：{question}\n\n文件内容：\n{text_content}"`. -/
def buildContent (question text_content : String) : String :=
  "题目：" ++ question ++ "\n\n文件内容：\n" ++ text_content

/-- The suffix dispatch of the handler (src/app.py lines 55-62), applied to
the already-lowercased filename.  `read_image_fn` and `read_document_fn`
are the two parser entry points (the latter receives the bytes and
`filename.split(".")[-1]`, and may raise); the `.py`/`.java` branch is
`file_content.decode("utf-8", errors="ignore")` (line 60); an unrecognized
suffix raises `HTTPException(400)`. -/
def extractText (read_image_fn : List Nat → String)
    (read_document_fn : List Nat → String → Except PyExc String)
    (filename : String) (file_content : List Nat) : Except PyExc String :=
  if pyEndsWith filename ".jpg" || pyEndsWith filename ".jpeg" || pyEndsWith filename ".png" then
    .ok (read_image_fn file_content)
  else if pyEndsWith filename ".docx" || pyEndsWith filename ".pdf" then
    read_document_fn file_content ((filename.splitOn ".").getLastD "")
  else if pyEndsWith filename ".py" || pyEndsWith filename ".java" then
    .ok (decodeUtf8Ignore file_content)
  else
    .error (PyExc.http 400 "不支持的文件类型。")

/-- The response interpretation of the handler (src/app.py lines 70-78).
`jsonLoads` is Python's `json.loads`, returning `none` exactly when it
raises.  A reply with a `.content` attribute is parsed; on success the
parsed value is the body as-is, on failure the body is
`{"raw_output": <text>}`; a reply without `.content` yields
`{"result": str(result)}`. -/
def interpretReply (jsonLoads : String → Option JsonVal) : ModelReply → JsonVal
  | .message c =>
    match jsonLoads c with
    | some j => j
    | none => .obj [("raw_output", .str c)]
  | .plain r => .obj [("result", .str r)]

/-- The `try` body of `analyze_api` (src/app.py lines 47-78), modelled as
an `Except PyExc` computation built from explicit matches: missing file
raises `HTTPException(400)` (line 48); extraction dispatch may raise
(lines 55-62); a falsy analysis result raises `HTTPException(500)`
(line 67); otherwise the interpreted reply is the 200 body. -/
def analyzeInner (read_image_fn : List Nat → String)
    (read_document_fn : List Nat → String → Except PyExc String)
    (env : String → Option String)
    (chainInvoke : LLMConfig × String → String → Except String (Option ModelReply))
    (jsonLoads : String → Option JsonVal)
    (question : String) (file : Option UploadedFile) : Except PyExc JsonVal :=
  match file with
  | none => .error (PyExc.http 400 "必须上传一个文件。")
  | some f =>
    match extractText read_image_fn read_document_fn (pyLower f.filename) f.content with
    | .error e => .error e
    | .ok text_content =>
      match analyze_content env chainInvoke (buildContent question text_content) with
      | none => .error (PyExc.http 500 "LLM 分析失败，未返回结果。")
      | some result => .ok (interpretReply jsonLoads result)

/-- `analyze_api`, whole: the `try` body (`analyzeInner`) followed by the
`except` clause.  Note the consequence: the `HTTPException(400)`s raised
inside the `try` body are themselves caught at line 80 and re-raised as
status 500. -/
def analyze_api (read_image_fn : List Nat → String)
    (read_document_fn : List Nat → String → Except PyExc String)
    (env : String → Option String)
    (chainInvoke : LLMConfig × String → String → Except String (Option ModelReply))
    (jsonLoads : String → Option JsonVal)
    (question : String) (file : Option UploadedFile) : HResponse :=
  match analyzeInner read_image_fn read_document_fn env chainInvoke jsonLoads question file with
  | .ok body => .ok200 body
  | .error e => .err 500 ("服务器错误: " ++ excMsg e)

/-- The `AnalysisResult` shapes of spec section 3, stated from the spec's
words (for comparison with the code's behaviour): either a mapping whose
keys are exactly the four named fields, or the fallback mapping
`{"raw_output": <string>}`. -/
def specAnalysisResultShape : JsonVal → Bool
  | .obj fields =>
    (let keys := fields.map Prod.fst
     keys.length == 4 && keys.contains "logical_analysis" &&
       keys.contains "correctness_evaluation" && keys.contains "overall_score" &&
       keys.contains "suggestions")
    ||
    (match fields with
     | [(k, .str _)] => k == "raw_output"
     | _ => false)
  | _ => false

/-! ## Shared lemmas -/

theorem data_append (s t : String) : (s ++ t).data = s.data ++ t.data := rfl

theorem mem_dropWhile_of_not {p : Char → Bool} {a : Char} {l : List Char}
    (hmem : a ∈ l) (hp : p a = false) : a ∈ l.dropWhile p := by
  have hsplit : l.takeWhile p ++ l.dropWhile p = l := List.takeWhile_append_dropWhile p l
  rw [← hsplit] at hmem
  rcases List.mem_append.mp hmem with h | h
  · have := List.mem_takeWhile_imp h
    rw [hp] at this
    exact absurd this (by simp)
  · exact h

theorem stripList_ne_nil {a : Char} {l : List Char}
    (hmem : a ∈ l) (hp : pyIsSpace a = false) : stripList l ≠ [] := by
  unfold stripList
  intro hnil
  have h1 : (l.dropWhile pyIsSpace).reverse.dropWhile pyIsSpace = [] := by
    have := congrArg List.reverse hnil
    simpa using this
  have ha : a ∈ (l.dropWhile pyIsSpace).reverse.dropWhile pyIsSpace :=
    mem_dropWhile_of_not (List.mem_reverse.mpr (mem_dropWhile_of_not hmem hp)) hp
  rw [h1] at ha
  exact absurd ha (List.not_mem_nil a)

theorem pyStrip_ne_empty {a : Char} {s : String}
    (hmem : a ∈ s.data) (hp : pyIsSpace a = false) : pyStrip s ≠ "" := by
  unfold pyStrip
  intro h
  have hdata : stripList s.data = [] := by
    have := congrArg String.data h
    simpa using this
  exact stripList_ne_nil hmem hp hdata

theorem mem_buildContent_head (q t : String) : '题' ∈ (buildContent q t).data := by
  show '题' ∈ ((("题目：".data ++ q.data) ++ "\n\n文件内容：\n".data) ++ t.data)
  simp [show "题目：".data = ['题', '目', '：'] from rfl]

theorem pyStrip_buildContent_ne (q t : String) : pyStrip (buildContent q t) ≠ "" :=
  pyStrip_ne_empty (mem_buildContent_head q t) (by decide)

/-! ## C2 -/

/-- C2: the OCR reader `read_image` is total — for every byte input (over
every behaviour of the image decoder and the OCR engine) it returns a
string along exactly these paths: bytes that fail to decode yield the
decode-failure sentinel `"[图像解码失败]"`; an exception in processing
yields the sentinel `"[OCR识别出错: <message>]"` embedding the error
message; an empty cleaned recognition result yields `"[未识别出文字]"`;
otherwise the cleaned text itself is returned.  Being a Lean function into
`String`, `read_image` never fails on any path. -/
theorem c2_read_image_total_sentinels {Image : Type}
    (imdecode : List Nat → Option Image) (preprocess : Image → Image)
    (ocr : Image → Except String String) (b : List Nat) :
    (imdecode b = none →
      read_image imdecode preprocess ocr b = "[图像解码失败]") ∧
    (∀ img e, imdecode b = some img → ocr (preprocess img) = .error e →
      read_image imdecode preprocess ocr b = "[OCR识别出错: " ++ e ++ "]") ∧
    (∀ img t, imdecode b = some img → ocr (preprocess img) = .ok t → cleanOcr t = "" →
      read_image imdecode preprocess ocr b = "[未识别出文字]") ∧
    (∀ img t, imdecode b = some img → ocr (preprocess img) = .ok t → cleanOcr t ≠ "" →
      read_image imdecode preprocess ocr b = cleanOcr t) := by
  refine ⟨?_, ?_, ?_, ?_⟩
  · intro h
    simp only [read_image, h]
  · intro img e h1 h2
    simp only [read_image, h1, h2]
  · intro img t h1 h2 h3
    simp only [read_image, h1, h2, if_pos h3]
  · intro img t h1 h2 h3
    simp only [read_image, h1, h2, if_neg h3]

/-- Witness for C2: a concrete decoder that rejects the blob produces the
decode-failure sentinel; a concrete raising OCR engine produces the
error-embedding sentinel. -/
theorem c2_witness :
    @read_image Unit (fun _ => none) id (fun _ => .ok "") [0] = "[图像解码失败]" ∧
    @read_image Unit (fun _ => some ()) id (fun _ => .error "boom") [0] =
      "[OCR识别出错: boom]" := by
  constructor
  · exact (c2_read_image_total_sentinels (fun _ => none) id (fun _ => .ok "") [0]).1 rfl
  · exact (c2_read_image_total_sentinels (fun _ => some ()) id
      (fun _ => .error "boom") [0]).2.1 () "boom" rfl rfl

/-! ## C3 -/

/-- C3: for a model reply exposing a textual payload, the handler attempts
strict JSON parsing of that payload: on success the parsed value is the
200 body unchanged (pass-through, no schema validation — any JSON value
`j` is returned as-is), on parse failure the body is
`{"raw_output": <original text>}`; a reply with no textual payload yields
`{"result": <string conversion of the whole reply>}`. -/
theorem c3_interpret_reply (jsonLoads : String → Option JsonVal)
    (c r : String) (j : JsonVal) :
    (jsonLoads c = some j → interpretReply jsonLoads (.message c) = j) ∧
    (jsonLoads c = none →
      interpretReply jsonLoads (.message c) = .obj [("raw_output", .str c)]) ∧
    interpretReply jsonLoads (.plain r) = .obj [("result", .str r)] := by
  refine ⟨?_, ?_, rfl⟩
  · intro h
    simp only [interpretReply, h]
  · intro h
    simp only [interpretReply, h]

/-- Witness for C3: a parser that succeeds passes the parsed value
through; one that fails produces the raw-output envelope. -/
theorem c3_witness :
    interpretReply (fun s => if s = "null" then some .null else none) (.message "null") =
      .null ∧
    interpretReply (fun s => if s = "null" then some .null else none) (.message "not json") =
      .obj [("raw_output", .str "not json")] := by
  constructor
  · exact (c3_interpret_reply (fun s => if s = "null" then some .null else none)
      "null" "r" .null).1 rfl
  · exact (c3_interpret_reply (fun s => if s = "null" then some .null else none)
      "not json" "r" .null).2.1 rfl

/-! ## C5 -/

/-- C5: `analyze_content` returns `None` for empty or whitespace-only
content without invoking the remote service (the result is `none` for
every possible remote behaviour `ci'`, so no remote call can be observed),
and any exception raised during the remote invocation is caught and
converted to `None`. -/
theorem c5_analyze_content_guard_and_catch (env : String → Option String)
    (ci : LLMConfig × String → String → Except String (Option ModelReply))
    (content : String) :
    (pyStrip content = "" →
      ∀ ci', analyze_content env ci' content = none) ∧
    (∀ e, ci (build_analysis_chain env) content = .error e →
      analyze_content env ci content = none) := by
  constructor
  · intro h ci'
    unfold analyze_content
    rw [if_pos (Or.inr h)]
  · intro e he
    unfold analyze_content
    by_cases hc : content = "" ∨ pyStrip content = ""
    · rw [if_pos hc]
    · rw [if_neg hc, he]
      rfl

/-- Witness for C5: whitespace-only content short-circuits to `none` even
though the remote behaviour would return a reply; a raising remote
invocation also yields `none`. -/
theorem c5_witness :
    analyze_content (fun _ => none) (fun _ _ => .ok (some (.message "x"))) " \t " = none ∧
    analyze_content (fun _ => none) (fun _ _ => .error "timeout") "hello" = none := by
  constructor
  · exact (c5_analyze_content_guard_and_catch (fun _ => none)
      (fun _ _ => .ok (some (.message "x"))) " \t ").1 rfl
      (fun _ _ => .ok (some (.message "x")))
  · exact (c5_analyze_content_guard_and_catch (fun _ => none)
      (fun _ _ => .error "timeout") "hello").2 "timeout" rfl

/-! ## C10 -/

/-- C10: the content string the handler passes to `analyze_content` starts
with the fixed prefix `"题目："`, which survives stripping, so for every
question, extracted text, environment and remote behaviour the
empty-content short-circuit of `analyze_content` is not taken: the result
is always the handling of the remote invocation itself. -/
theorem c10_short_circuit_unreachable (q t : String) (env : String → Option String)
    (chainInvoke : LLMConfig × String → String → Except String (Option ModelReply)) :
    pyStrip (buildContent q t) ≠ "" ∧
    analyze_content env chainInvoke (buildContent q t) =
      invokeResultToOption (chainInvoke (build_analysis_chain env) (buildContent q t)) := by
  refine ⟨pyStrip_buildContent_ne q t, ?_⟩
  unfold analyze_content
  rw [if_neg]
  rintro (h | h)
  · exact pyStrip_buildContent_ne q t (by rw [h]; rfl)
  · exact pyStrip_buildContent_ne q t h

/-! ## C1 -/

/-- C1 (actual code behaviour at the failing inputs): the `try` body does
raise `HTTPException(400)` for a missing file and for an unsupported
suffix — the intended statuses — but the handler's own
`except Exception` clause (src/app.py lines 80-82) catches those very
exceptions and re-raises them as `HTTPException(500,
f"服务器错误: {e}")`, so the client receives HTTP 500, not 400, in both
cases.  (Dependencies are instantiated concretely; neither input reaches
them.) -/
theorem c1_http400_swallowed_to_500 :
    analyzeInner (fun _ => "") (fun _ _ => .ok "") (fun _ => none) (fun _ _ => .ok none)
        (fun _ => none) "q" none = .error (.http 400 "必须上传一个文件。") ∧
    analyze_api (fun _ => "") (fun _ _ => .ok "") (fun _ => none) (fun _ _ => .ok none)
        (fun _ => none) "q" none = .err 500 "服务器错误: 400: 必须上传一个文件。" ∧
    analyzeInner (fun _ => "") (fun _ _ => .ok "") (fun _ => none) (fun _ _ => .ok none)
        (fun _ => none) "q" (some ⟨"a.gif", []⟩) =
      .error (.http 400 "不支持的文件类型。") ∧
    analyze_api (fun _ => "") (fun _ _ => .ok "") (fun _ => none) (fun _ _ => .ok none)
        (fun _ => none) "q" (some ⟨"a.gif", []⟩) =
      .err 500 "服务器错误: 400: 不支持的文件类型。" :=
  ⟨rfl, rfl, rfl, rfl⟩

/-! ## C4 -/

/-- C4 counterexample: a run in which the model reply's textual payload is
the valid JSON text `"42"` (the remote-parser parameter here is Python's
`json.loads` restricted to that input, on which `json.loads` returns the
number `42`).  The handler returns HTTP 200 with body `42`, which is
neither a four-field mapping nor `{"raw_output": <string>}` — so not every
successful body is one of the two `AnalysisResult` shapes. -/
theorem c4_counterexample :
    analyze_api (fun _ => "") (fun _ _ => .ok "") (fun _ => none)
        (fun _ _ => .ok (some (.message "42")))
        (fun s => if s = "42" then some (.num 42) else none)
        "q" (some ⟨"a.py", []⟩) = .ok200 (.num 42) ∧
    specAnalysisResultShape (.num 42) = false :=
  ⟨rfl, rfl⟩

/-- C4 (amended): every successful (HTTP 200) response body is either a
value the JSON parser produced from the reply's textual payload (passed
through with no schema validation, so any JSON value is possible), or the
fallback mapping `{"raw_output": <string>}`, or the mapping
`{"result": <string>}` for a reply with no textual payload; it is not
restricted to the two `AnalysisResult` shapes. -/
theorem c4_amended_ok_bodies (ri : List Nat → String)
    (rd : List Nat → String → Except PyExc String) (env : String → Option String)
    (ci : LLMConfig × String → String → Except String (Option ModelReply))
    (jl : String → Option JsonVal) (q : String) (file : Option UploadedFile)
    (body : JsonVal)
    (h : analyze_api ri rd env ci jl q file = .ok200 body) :
    (∃ s, jl s = some body) ∨ (∃ s, body = .obj [("raw_output", .str s)]) ∨
      (∃ s, body = .obj [("result", .str s)]) := by
  unfold analyze_api at h
  split at h
  case _ j hi =>
    have hjb : j = body := by
      simpa using h
    subst hjb
    unfold analyzeInner at hi
    split at hi
    · exact absurd hi (by simp)
    case _ f =>
      split at hi
      · exact absurd hi (by simp)
      case _ text hx =>
        split at hi
        · exact absurd hi (by simp)
        case _ r hr =>
          have hj : interpretReply jl r = j := by
            simpa using hi
          cases r with
          | message c =>
            cases hjl : jl c with
            | some v =>
              left
              refine ⟨c, ?_⟩
              rw [hjl, ← hj]
              simp only [interpretReply, hjl]
            | none =>
              right; left
              refine ⟨c, ?_⟩
              rw [← hj]
              simp only [interpretReply, hjl]
          | plain s =>
            right; right
            exact ⟨s, by rw [← hj]; rfl⟩
  case _ e he =>
    exact absurd h (by simp)

/-- Witness for C4 (amended), at the counterexample run: the body `42` is
indeed a parser-produced value. -/
theorem c4_amended_witness :
    (∃ s, (fun t => if t = "42" then some (JsonVal.num 42) else none) s =
      some (JsonVal.num 42)) ∨
    (∃ s, JsonVal.num 42 = .obj [("raw_output", .str s)]) ∨
    (∃ s, JsonVal.num 42 = .obj [("result", .str s)]) :=
  c4_amended_ok_bodies (fun _ => "") (fun _ _ => .ok "") (fun _ => none)
    (fun _ _ => .ok (some (.message "42")))
    (fun t => if t = "42" then some (.num 42) else none)
    "q" (some ⟨"a.py", []⟩) (.num 42) rfl

/-! ## C6 -/

theorem isPrefixOf_false_of_head_ne {a b : Char} {la lb l : List Char}
    (h : (a :: la).isPrefixOf l = true) (hne : b ≠ a) :
    (b :: lb).isPrefixOf l = false := by
  cases l with
  | nil => simp [List.isPrefixOf] at h
  | cons c cs =>
    simp only [List.isPrefixOf, Bool.and_eq_true, beq_iff_eq] at h
    obtain ⟨rfl, -⟩ := h
    simp [List.isPrefixOf, hne]

theorem pyEndsWith_py_excl (fn : String) (h : pyEndsWith fn ".py" = true) :
    pyEndsWith fn ".jpg" = false ∧ pyEndsWith fn ".jpeg" = false ∧
    pyEndsWith fn ".png" = false ∧ pyEndsWith fn ".docx" = false ∧
    pyEndsWith fn ".pdf" = false := by
  have h' : (['y', 'p', '.'] : List Char).isPrefixOf fn.data.reverse = true := h
  exact ⟨isPrefixOf_false_of_head_ne h' (by decide),
    isPrefixOf_false_of_head_ne h' (by decide),
    isPrefixOf_false_of_head_ne h' (by decide),
    isPrefixOf_false_of_head_ne h' (by decide),
    isPrefixOf_false_of_head_ne h' (by decide)⟩

theorem pyEndsWith_java_excl (fn : String) (h : pyEndsWith fn ".java" = true) :
    pyEndsWith fn ".jpg" = false ∧ pyEndsWith fn ".jpeg" = false ∧
    pyEndsWith fn ".png" = false ∧ pyEndsWith fn ".docx" = false ∧
    pyEndsWith fn ".pdf" = false := by
  have h' : (['a', 'v', 'a', 'j', '.'] : List Char).isPrefixOf fn.data.reverse = true := h
  exact ⟨isPrefixOf_false_of_head_ne h' (by decide),
    isPrefixOf_false_of_head_ne h' (by decide),
    isPrefixOf_false_of_head_ne h' (by decide),
    isPrefixOf_false_of_head_ne h' (by decide),
    isPrefixOf_false_of_head_ne h' (by decide)⟩

/-- C6 counterexample: the `.py`/`.java` branch decodes with
`errors="ignore"`, which DROPS undecodable byte sequences.  On the bytes
`[0xFF, 'h', 'i']` the code yields `"hi"` (the invalid byte silently
dropped), whereas the claimed replacing behaviour (`errors="replace"`)
yields `"�" ++ "hi"` — a different string.  So extraction does not
replace undecodable sequences; it drops them. -/
theorem c6_counterexample :
    extractText (fun _ => "") (fun _ _ => .ok "") "a.py" [0xFF, 0x68, 0x69] = .ok "hi" ∧
    decodeUtf8Ignore [0xFF, 0x68, 0x69] = "hi" ∧
    decodeUtf8Replace [0xFF, 0x68, 0x69] = "�hi" ∧
    ("hi" : String) ≠ "�hi" :=
  ⟨rfl, rfl, rfl, by decide⟩

/-- C6 (amended): for every uploaded file whose (lowercased) filename ends
in `.py` or `.java`, extraction decodes the raw bytes directly as UTF-8
text, dropping (ignoring) undecodable byte sequences rather than failing,
and the result bypasses the chunking step entirely — the outcome is
independent of the document-reading dependency (`rd` is universally
quantified and unused on this path). -/
theorem c6_amended_decode_ignore_bypass (ri : List Nat → String)
    (rd : List Nat → String → Except PyExc String) (fn : String) (c : List Nat)
    (h : pyEndsWith fn ".py" = true ∨ pyEndsWith fn ".java" = true) :
    extractText ri rd fn c = .ok (decodeUtf8Ignore c) := by
  unfold extractText
  rcases h with h | h
  · obtain ⟨h1, h2, h3, h4, h5⟩ := pyEndsWith_py_excl fn h
    rw [h1, h2, h3, h4, h5, h]
    simp
  · obtain ⟨h1, h2, h3, h4, h5⟩ := pyEndsWith_java_excl fn h
    rw [h1, h2, h3, h4, h5, h]
    simp

/-- Witness for C6 (amended): a concrete `.py` upload. -/
theorem c6_amended_witness :
    extractText (fun _ => "") (fun _ _ => .ok "") "a.py" [104, 105] =
      .ok (decodeUtf8Ignore [104, 105]) :=
  c6_amended_decode_ignore_bypass (fun _ => "") (fun _ _ => .ok "") "a.py" [104, 105]
    (Or.inl rfl)

/-! ## C8 -/

/-- C8 counterexample: set the process configuration's
`DEEPSEEK_API_KEY` to `"ENVKEY"`.  The chain built by
`build_analysis_chain` nevertheless uses the hardcoded literal key — the
credentials the remote call uses are NOT read from process-wide
configuration (the env reads on lines 49-51 are discarded; the
`ChatOpenAI` call passes literals). -/
theorem c8_counterexample :
    (build_analysis_chain
      (fun k => if k = "DEEPSEEK_API_KEY" then some "ENVKEY" else none)).1.api_key =
      "sk-248cb36807834c44a1b2b2104861a6e1" ∧
    ("sk-248cb36807834c44a1b2b2104861a6e1" : String) ≠ "ENVKEY" :=
  ⟨rfl, by decide⟩

/-- C8 (amended): the remote call always uses the fixed parameters
temperature 0.3, timeout 60 seconds and at most 2 automatic retries, and a
hardcoded API key, endpoint URL and model name embedded in the source —
the same configuration for every environment, so no environment setting
and no per-request input overrides any of it (the chain is rebuilt with
these same constants on every `analyze_content` call). -/
theorem c8_amended_fixed_config (env : String → Option String) :
    (build_analysis_chain env).1 =
      { api_key := "sk-248cb36807834c44a1b2b2104861a6e1"
        base_url := "https://api.deepseek.com/v1"
        model := "deepseek-chat"
        temperature := 3 / 10
        timeout := 60
        max_retries := 2 } :=
  rfl

/-! ## C9 -/

theorem eraseP_fresh (fs : List (String × List Nat)) (fp : String) (b : List Nat)
    (h : ∀ e ∈ fs, e.1 ≠ fp) :
    (fs ++ [(fp, b)]).eraseP (fun e => e.1 == fp) = fs := by
  rw [List.eraseP_append_right]
  · simp [List.eraseP]
  · intro e he
    simpa using h e he

/-- C9: for every call to `read_document` on a byte blob (with a fresh
temporary-file name, as the OS guarantees), the final file-system state
equals the initial one — the temporary file written for extraction is
removed by the `finally` block no matter whether the loader succeeds or
raises (the loader `load` and splitter `split` are universally
quantified, covering both), and no other entry of the file system is
touched. -/
theorem c9_tempfile_removed (load : String → List Nat → Except String (List String))
    (split : Nat → Nat → List String → List String) (fresh : String)
    (b : List Nat) (ft : Option String) (fs : List (String × List Nat))
    (hfresh : ∀ e ∈ fs, e.1 ≠ fresh ++ tempSuffix ft) :
    (read_document load split fresh (.bytes b) ft fs).2 = fs := by
  unfold read_document
  simp only
  have hany : ((fs ++ [(fresh ++ tempSuffix ft, b)]).any
      (fun e => e.1 == fresh ++ tempSuffix ft)) = true := by
    simp
  rw [hany]
  simp only [Bool.and_true]
  exact eraseP_fresh fs _ b hfresh

/-- Witness for C9: a concrete failing loader on a concrete state — the
temp file is gone afterwards and the pre-existing entry is intact. -/
theorem c9_witness :
    (read_document (fun _ _ => .error "corrupt file") (fun _ _ d => d) "tmp7"
      (.bytes [1, 2, 3]) (some "pdf") [("kept", [9])]).2 = [("kept", [9])] :=
  c9_tempfile_removed (fun _ _ => .error "corrupt file") (fun _ _ d => d) "tmp7"
    [1, 2, 3] (some "pdf") [("kept", [9])] (by decide)

/-! ## C7 -/

theorem find_fresh (fs : List (String × List Nat)) (fp : String) (b : List Nat)
    (h : ∀ e ∈ fs, e.1 ≠ fp) :
    (fs ++ [(fp, b)]).find? (fun e => e.1 == fp) = some (fp, b) := by
  induction fs with
  | nil => simp [List.find?]
  | cons e es ih =>
    have he : (e.1 == fp) = false := by
      simpa using h e (List.mem_cons_self e es)
    rw [List.cons_append, List.find?_cons, he]
    exact ih (fun x hx => h x (List.mem_cons_of_mem e hx))

theorem extOf_concat_pdf (s : String) : extOf (s ++ ".pdf") = ".pdf" := by
  unfold extOf
  have hd : (s ++ ".pdf").data = s.data ++ ['.', 'p', 'd', 'f'] := rfl
  rw [hd, if_pos (by simp)]
  rw [List.reverse_append]
  show String.mk ('.' ::
    (((['f', 'd', 'p', '.'] ++ s.data.reverse).takeWhile (fun c => c != '.')).reverse.map
      Char.toLower)) = ".pdf"
  simp only [List.cons_append, List.nil_append]
  rw [List.takeWhile_cons_of_pos (by decide), List.takeWhile_cons_of_pos (by decide),
    List.takeWhile_cons_of_pos (by decide), List.takeWhile_cons_of_neg (by decide)]
  rfl

theorem extOf_concat_docx (s : String) : extOf (s ++ ".docx") = ".docx" := by
  unfold extOf
  have hd : (s ++ ".docx").data = s.data ++ ['.', 'd', 'o', 'c', 'x'] := rfl
  rw [hd, if_pos (by simp)]
  rw [List.reverse_append]
  show String.mk ('.' ::
    (((['x', 'c', 'o', 'd', '.'] ++ s.data.reverse).takeWhile (fun c => c != '.')).reverse.map
      Char.toLower)) = ".docx"
  simp only [List.cons_append, List.nil_append]
  rw [List.takeWhile_cons_of_pos (by decide), List.takeWhile_cons_of_pos (by decide),
    List.takeWhile_cons_of_pos (by decide), List.takeWhile_cons_of_pos (by decide),
    List.takeWhile_cons_of_neg (by decide)]
  rfl

theorem extOf_concat_txt (s : String) : extOf (s ++ ".txt") = ".txt" := by
  unfold extOf
  have hd : (s ++ ".txt").data = s.data ++ ['.', 't', 'x', 't'] := rfl
  rw [hd, if_pos (by simp)]
  rw [List.reverse_append]
  show String.mk ('.' ::
    (((['t', 'x', 't', '.'] ++ s.data.reverse).takeWhile (fun c => c != '.')).reverse.map
      Char.toLower)) = ".txt"
  simp only [List.cons_append, List.nil_append]
  rw [List.takeWhile_cons_of_pos (by decide), List.takeWhile_cons_of_pos (by decide),
    List.takeWhile_cons_of_pos (by decide), List.takeWhile_cons_of_neg (by decide)]
  rfl

theorem extOf_concat_py (s : String) : extOf (s ++ ".py") = ".py" := by
  unfold extOf
  have hd : (s ++ ".py").data = s.data ++ ['.', 'p', 'y'] := rfl
  rw [hd, if_pos (by simp)]
  rw [List.reverse_append]
  show String.mk ('.' ::
    (((['y', 'p', '.'] ++ s.data.reverse).takeWhile (fun c => c != '.')).reverse.map
      Char.toLower)) = ".py"
  simp only [List.cons_append, List.nil_append]
  rw [List.takeWhile_cons_of_pos (by decide), List.takeWhile_cons_of_pos (by decide),
    List.takeWhile_cons_of_neg (by decide)]
  rfl

theorem extOf_concat_java (s : String) : extOf (s ++ ".java") = ".java" := by
  unfold extOf
  have hd : (s ++ ".java").data = s.data ++ ['.', 'j', 'a', 'v', 'a'] := rfl
  rw [hd, if_pos (by simp)]
  rw [List.reverse_append]
  show String.mk ('.' ::
    (((['a', 'v', 'a', 'j', '.'] ++ s.data.reverse).takeWhile (fun c => c != '.')).reverse.map
      Char.toLower)) = ".java"
  simp only [List.cons_append, List.nil_append]
  rw [List.takeWhile_cons_of_pos (by decide), List.takeWhile_cons_of_pos (by decide),
    List.takeWhile_cons_of_pos (by decide), List.takeWhile_cons_of_pos (by decide),
    List.takeWhile_cons_of_neg (by decide)]
  rfl

/-- The loader kind `read_document` selects for a file-type suffix
(src/document_parser.py lines 97-104): `PyPDFLoader` for pdf,
`Docx2txtLoader` for doc/docx, `TextLoader` for the txt-like suffixes
txt/py/java. -/
def loaderKindOf (t : String) : String :=
  if t = "pdf" then "pdf" else if t = "docx" then "docx" else "txt"

/-- The character offset at which the `k`-th chunk of a
newline-rejoined chunk list begins: the lengths of the earlier chunks
plus one separator each. -/
def joinOffset : List String → Nat → Nat
  | _, 0 => 0
  | [], _ + 1 => 0
  | c :: cs, k + 1 => c.length + 1 + joinOffset cs k

theorem joinWithNewline_cons_cons (c d : String) (ds : List String) :
    joinWithNewline (c :: d :: ds) = c ++ "\n" ++ joinWithNewline (d :: ds) := rfl

theorem joinWithNewline_chunk_at (chunks : List String) (k : Nat)
    (hk : k < chunks.length) :
    ∃ pre rest, (joinWithNewline chunks).data =
      pre ++ (chunks.get ⟨k, hk⟩).data ++ rest ∧ pre.length = joinOffset chunks k := by
  induction chunks generalizing k with
  | nil => simp at hk
  | cons c cs ih =>
    cases k with
    | zero =>
      cases cs with
      | nil => exact ⟨[], [], by simp [joinWithNewline], rfl⟩
      | cons d ds =>
        refine ⟨[], ("\n" ++ joinWithNewline (d :: ds)).data, ?_, rfl⟩
        rw [joinWithNewline_cons_cons]
        show (c.data ++ "\n".data) ++ (joinWithNewline (d :: ds)).data =
          [] ++ c.data ++ ("\n".data ++ (joinWithNewline (d :: ds)).data)
        simp
    | succ k' =>
      cases cs with
      | nil => simp at hk
      | cons d ds =>
        have hk' : k' < (d :: ds).length := by
          simpa using Nat.lt_of_succ_lt_succ hk
        obtain ⟨pre, rest, heq, hlen⟩ := ih k' hk'
        refine ⟨c.data ++ '\n' :: pre, rest, ?_, ?_⟩
        · rw [joinWithNewline_cons_cons]
          show (c.data ++ "\n".data) ++ (joinWithNewline (d :: ds)).data =
            (c.data ++ '\n' :: pre) ++ ((c :: d :: ds).get ⟨k' + 1, hk⟩).data ++ rest
          have hget : ((c :: d :: ds).get ⟨k' + 1, hk⟩) = ((d :: ds).get ⟨k', hk'⟩) := rfl
          rw [hget, heq]
          simp
        · simp only [List.length_append, List.length_cons, hlen, joinOffset]
          have : c.length = c.data.length := rfl
          omega

theorem joinOffset_strict_mono (chunks : List String) (k : Nat)
    (hk : k + 1 < chunks.length) :
    joinOffset chunks k < joinOffset chunks (k + 1) := by
  induction chunks generalizing k with
  | nil => simp at hk
  | cons c cs ih =>
    cases k with
    | zero =>
      show 0 < c.length + 1 + joinOffset cs 0
      omega
    | succ k' =>
      have hk' : k' + 1 < cs.length := by
        simpa using Nat.lt_of_succ_lt_succ hk
      have := ih k' hk'
      show c.length + 1 + joinOffset cs k' < c.length + 1 + joinOffset cs (k' + 1)
      omega

/-- C7: for every pdf/docx/txt-like (txt, py, java suffix) byte-blob
document (with a fresh temp name), `read_document` loads the blob as a
document with the loader its suffix selects, hands the page texts to the
splitter configured with chunk size 1000 and overlap 200, and returns the
chunk texts rejoined with newline separators in the splitter's original
order; consequently the `k`-th chunk occurs in the returned string at the
offset accounting for exactly the chunks before it, and those offsets are
strictly increasing — the concatenation order matches the chunk-list
(source-document) order. -/
theorem c7_read_document_chunks_in_order
    (load : String → List Nat → Except String (List String))
    (split : Nat → Nat → List String → List String) (fresh : String)
    (b : List Nat) (t : String) (fs : List (String × List Nat)) (docs : List String)
    (ht : t = "pdf" ∨ t = "docx" ∨ t = "txt" ∨ t = "py" ∨ t = "java")
    (hfresh : ∀ e ∈ fs, e.1 ≠ fresh ++ tempSuffix (some t))
    (hload : load (loaderKindOf t) b = .ok docs) :
    (read_document load split fresh (.bytes b) (some t) fs).1 =
      .ok (joinWithNewline (split 1000 200 docs)) ∧
    (∀ k (hk : k < (split 1000 200 docs).length),
      ∃ pre rest, (joinWithNewline (split 1000 200 docs)).data =
        pre ++ ((split 1000 200 docs).get ⟨k, hk⟩).data ++ rest ∧
        pre.length = joinOffset (split 1000 200 docs) k) ∧
    (∀ k, k + 1 < (split 1000 200 docs).length →
      joinOffset (split 1000 200 docs) k < joinOffset (split 1000 200 docs) (k + 1)) := by
  refine ⟨?_, joinWithNewline_chunk_at (split 1000 200 docs),
    joinOffset_strict_mono (split 1000 200 docs)⟩
  unfold read_document
  simp only
  have hfind := find_fresh fs (fresh ++ tempSuffix (some t)) b hfresh
  rcases ht with rfl | rfl | rfl | rfl | rfl
  · have hload' : load "pdf" b = .ok docs := hload
    have hsuf : fresh ++ tempSuffix (some "pdf") = fresh ++ ".pdf" := rfl
    rw [hsuf] at hfind ⊢
    rw [extOf_concat_pdf, if_pos rfl, hfind]
    rw [show ((some ((fresh ++ ".pdf", b) : String × List Nat)).map Prod.snd).getD [] = b
      from rfl]
    rw [hload']
    rfl
  · have hload' : load "docx" b = .ok docs := hload
    have hsuf : fresh ++ tempSuffix (some "docx") = fresh ++ ".docx" := rfl
    rw [hsuf] at hfind ⊢
    rw [extOf_concat_docx]
    rw [if_neg (by decide), if_pos (by simp), hfind]
    rw [show ((some ((fresh ++ ".docx", b) : String × List Nat)).map Prod.snd).getD [] = b
      from rfl]
    rw [hload']
    rfl
  · have hload' : load "txt" b = .ok docs := hload
    have hsuf : fresh ++ tempSuffix (some "txt") = fresh ++ ".txt" := rfl
    rw [hsuf] at hfind ⊢
    rw [extOf_concat_txt]
    rw [if_neg (by decide), if_neg (by decide), if_pos (by simp), hfind]
    rw [show ((some ((fresh ++ ".txt", b) : String × List Nat)).map Prod.snd).getD [] = b
      from rfl]
    rw [hload']
    rfl
  · have hload' : load "txt" b = .ok docs := hload
    have hsuf : fresh ++ tempSuffix (some "py") = fresh ++ ".py" := rfl
    rw [hsuf] at hfind ⊢
    rw [extOf_concat_py]
    rw [if_neg (by decide), if_neg (by decide), if_pos (by simp), hfind]
    rw [show ((some ((fresh ++ ".py", b) : String × List Nat)).map Prod.snd).getD [] = b
      from rfl]
    rw [hload']
    rfl
  · have hload' : load "txt" b = .ok docs := hload
    have hsuf : fresh ++ tempSuffix (some "java") = fresh ++ ".java" := rfl
    rw [hsuf] at hfind ⊢
    rw [extOf_concat_java]
    rw [if_neg (by decide), if_neg (by decide), if_pos (by simp), hfind]
    rw [show ((some ((fresh ++ ".java", b) : String × List Nat)).map Prod.snd).getD [] = b
      from rfl]
    rw [hload']
    rfl

/-- Witness for C7: a concrete pdf run and a concrete txt-like run, each
with a two-page loader and a splitter that chunks pages as given. -/
theorem c7_witness :
    (read_document (fun _ _ => .ok ["page one", "page two"]) (fun _ _ d => d) "tmp9"
      (.bytes [1]) (some "pdf") []).1 = .ok (joinWithNewline ["page one", "page two"]) ∧
    (read_document (fun _ _ => .ok ["line one", "line two"]) (fun _ _ d => d) "tmp9"
      (.bytes [1]) (some "txt") []).1 = .ok (joinWithNewline ["line one", "line two"]) :=
  ⟨(c7_read_document_chunks_in_order (fun _ _ => .ok ["page one", "page two"])
      (fun _ _ d => d) "tmp9" [1] "pdf" [] ["page one", "page two"]
      (Or.inl rfl) (by simp) rfl).1,
   (c7_read_document_chunks_in_order (fun _ _ => .ok ["line one", "line two"])
      (fun _ _ d => d) "tmp9" [1] "txt" [] ["line one", "line two"]
      (Or.inr (Or.inr (Or.inl rfl))) (by simp) rfl).1⟩

end Filelearn
